import Mathlib

/-!
Verification of the ReACT agent loop (src/agent/react_agent.py) and the
tool wrapper (src/agent/tools/base.py).

The Python code is shallowly embedded:
* a conversation turn (`{"role": ..., "content": ...}`) is a `Message`;
* the Groq client is an oracle `LLM : List Message → Except String String`
  (the `String` error is `str(e)` of whatever exception the client raised);
* `Agent._call_llm` is `callLLM`, wrapping client failures in
  `AgentError.llmAPIError` exactly as the Python `except` clause does;
* the regex `Action: ([a-z_]+): (.+?)(?:\n|$)` with `re.IGNORECASE` is
  implemented character by character (`searchAction`);
* the `while iteration < max_iterations` loop of `Agent.run_loop` is the
  fuel recursion `runLoopAux`; besides the conversation and the joined
  replies it carries two instrumentation counters, the number of calls to
  the model boundary (`llmCalls`) and the number of `safe_execute`
  dispatches (`toolCalls`);
* tool result dictionaries (`Dict[str, Any]`) are modelled as association
  lists of strings, and `json.dumps(result, indent=2)` as `dumps` (claims
  never inspect the rendered payload, only that it is prefixed with
  `Observation: `);
* the fields `model`, `temperature`, `debug` and the Groq client object of
  the Python `Agent` only affect logging / the transport and are omitted;
  the `callback` argument and `print` calls are side effects with no
  influence on control flow or state and are omitted as well.
-/

/-- One conversation turn: a `{"role": ..., "content": ...}` dict. -/
structure Message where
  role : String
  content : String
deriving Repr, DecidableEq

/-- Python `"pat" in s` substring test. -/
def containsSubstr (s pat : String) : Bool :=
  decide (pat.data <:+: s.data)

/-- Python `"\n".join(xs)`. -/
def joinNL : List String → String
  | [] => ""
  | [s] => s
  | s :: t :: rest => s ++ "\n" ++ joinNL (t :: rest)

/-- A tool (src/agent/tools/base.py).  `execute` models the overridable
`execute` method; `.error e` models the method raising an exception whose
`str` is `e`.  The result dict is modelled as an association list. -/
structure Tool where
  name : String
  description : String
  execute : String → Except String (List (String × String))

/-- Model of `Tool.safe_execute` (src/agent/tools/base.py lines 20-27): call
`execute`; on any exception return `{"error": f"Error executing the tool
{self.name} with args {args}"}`.  (The `logger` calls are side effects.) -/
def Tool.safe_execute (t : Tool) (args : String) : List (String × String) :=
  match t.execute args with
  | .ok r => r
  | .error _ => [("error", "Error executing the tool " ++ t.name ++ " with args " ++ args)]

/-- The exception hierarchy of src/agent/exceptions.py (only the leaves the
loop can see; each carries its message). -/
inductive AgentError where
  | configurationError (msg : String)
  | weatherAPIError (msg : String)
  | llmAPIError (msg : String)
  | toolExecutionError (msg : String)
  | toolNotFoundError (msg : String)
deriving Repr, DecidableEq

/-- The underlying model client: maps the conversation sent to it either to
the reply text or to the `str` of the exception it raised. -/
def LLM : Type := List Message → Except String String

/-- Model of `Agent._call_llm` (react_agent.py lines 160-180): forward the client's
reply, and wrap any client failure in `LLMAPIError(f"Error calling Groq
API: {str(e)}")`. -/
def callLLM (llm : LLM) (msgs : List Message) : Except AgentError String :=
  match llm msgs with
  | .ok r => .ok r
  | .error e => .error (.llmAPIError ("Error calling Groq API: " ++ e))

/-- Characters of the (case-insensitive) regex class `[a-z_]`. -/
def isNameChar (c : Char) : Bool :=
  ('a' ≤ c && c ≤ 'z') || ('A' ≤ c && c ≤ 'Z') || c == '_'

/-- Case-insensitive literal match; returns the remainder on success. -/
def matchesCaseless : List Char → List Char → Option (List Char)
  | [], rest => some rest
  | _ :: _, [] => none
  | p :: ps, c :: cs => if p.toLower == c.toLower then matchesCaseless ps cs else none

/-- Try to match `Action: ([a-z_]+): (.+?)(?:\n|$)` (IGNORECASE) anchored at
the head of `cs`.  The name class cannot contain `:`, so the greedy `[a-z_]+`
can only succeed on the maximal run; the lazy `(.+?)(?:\n|$)` captures the
non-empty run of non-newline characters up to the first newline or the end. -/
def matchActionAt (cs : List Char) : Option (String × String) :=
  match matchesCaseless "Action: ".data cs with
  | none => none
  | some rest =>
    let name := rest.takeWhile isNameChar
    if name.isEmpty then none
    else
      match rest.drop name.length with
      | ':' :: ' ' :: rest2 =>
        let args := rest2.takeWhile (fun c => c != '\n')
        if args.isEmpty then none else some (name.asString, args.asString)
      | _ => none

/-- Model of `re.search`: leftmost match wins. -/
def searchAction : List Char → Option (String × String)
  | [] => none
  | c :: cs =>
    match matchActionAt (c :: cs) with
    | some r => some r
    | none => searchAction cs

/-- Model of `Agent._parse_action` (react_agent.py lines 182-201): the returned dict
`{"tool": ..., "args": ...}` is the pair. -/
def parse_action (response : String) : Option (String × String) :=
  searchAction response.data

/-- Model of `json.dumps(result, indent=2)` for a flat string-valued dict (modelling
only payloads without characters that JSON would escape). -/
def dumps : List (String × String) → String
  | [] => "\x7b\x7d"
  | kvs =>
    "\x7b\n" ++
      String.intercalate ",\n" (kvs.map (fun kv => "  \"" ++ kv.1 ++ "\": \"" ++ kv.2 ++ "\"")) ++
      "\n\x7d"

/-- The agent state (react_agent.py): tool registry (a Python dict in
insertion order), default iteration ceiling, cached system prompt, and the
mutable conversation `self.messages`. -/
structure Agent where
  tools : List (String × Tool)
  max_iterations : Nat
  system_prompt : String
  messages : List Message

/-- Model of `Agent.reset` (react_agent.py lines 156-158). -/
def Agent.reset (a : Agent) : Agent :=
  { a with messages := [⟨"system", a.system_prompt⟩] }

/-- The corrective observation for a `PAUSE` reply with no parseable action
(react_agent.py line 287). -/
def couldNotParseObs : String :=
  "Observation: Could not parse action. Please use the format 'Action: tool_name: arguments'"

/-- The corrective observation for a reply with neither `Answer:` nor
`PAUSE` (react_agent.py line 299). -/
def noPauseObs : String :=
  "Observation: Expected 'Action: tool_name: arguments' followed by 'PAUSE'. Please follow the format."

/-- The observation for an action naming an unregistered tool
(react_agent.py lines 272-273). -/
def toolNotFoundObs (tools : List (String × Tool)) (name : String) : String :=
  "Observation: Tool '" ++ name ++ "' not found. Available tools: " ++
    String.intercalate ", " (tools.map Prod.fst)

/-- The fixed trailing notice on budget exhaustion (react_agent.py line 311). -/
def exceededNotice : String :=
  "\nExceeded maximum iterations without reaching an answer."

/-- Everything one `run_loop` invocation produces: the final conversation
(the state of `self.messages`, also when `_call_llm` raised), the number of
model-boundary calls, the number of `safe_execute` dispatches, and either
the returned string or the propagated exception. -/
structure RunOutcome where
  messages : List Message
  llmCalls : Nat
  toolCalls : Nat
  result : Except AgentError String

/-- The `while iteration < max_iterations` body of `Agent.run_loop`
(react_agent.py lines 235-311), with the remaining iteration budget as
fuel.  The `try/except` around `safe_execute` (lines 266-270) is dead code
in the source — `safe_execute` catches every exception — and is therefore
not represented: dispatch always produces the `json.dumps` observation. -/
def runLoopAux (tools : List (String × Tool)) (llm : LLM) :
    Nat → List Message → List String → Nat → Nat → RunOutcome
  | 0, msgs, full, lc, tc =>
    ⟨msgs, lc, tc, .ok (joinNL full ++ exceededNotice)⟩
  | fuel+1, msgs, full, lc, tc =>
    match callLLM llm msgs with
    | .error err => ⟨msgs, lc + 1, tc, .error err⟩
    | .ok response =>
      let msgs1 := msgs ++ [⟨"assistant", response⟩]
      let full1 := full ++ [response]
      if containsSubstr response "Answer:" then
        ⟨msgs1, lc + 1, tc, .ok (joinNL full1)⟩
      else if containsSubstr response "PAUSE" then
        match parse_action response with
        | some (toolName, args) =>
          match List.lookup toolName tools with
          | some t =>
            let observation := "Observation: " ++ dumps (t.safe_execute args)
            runLoopAux tools llm fuel (msgs1 ++ [⟨"user", observation⟩]) full1 (lc + 1) (tc + 1)
          | none =>
            runLoopAux tools llm fuel (msgs1 ++ [⟨"user", toolNotFoundObs tools toolName⟩])
              full1 (lc + 1) tc
        | none =>
          runLoopAux tools llm fuel (msgs1 ++ [⟨"user", couldNotParseObs⟩]) full1 (lc + 1) tc
      else
        runLoopAux tools llm fuel (msgs1 ++ [⟨"user", noPauseObs⟩]) full1 (lc + 1) tc

/-- The conversation as it stands right before the loop starts
(react_agent.py lines 225-230): re-seed to the system turn when a reset is
requested or no conversation exists, then append the query turn. -/
def initialMessages (a : Agent) (query : String) (reset_conversation : Bool) : List Message :=
  (if reset_conversation || a.messages.isEmpty
    then [⟨"system", a.system_prompt⟩] else a.messages) ++
    [⟨"user", "Question: " ++ query⟩]

/-- What `Agent.run_loop` leaves behind: the mutated agent and the returned
string (or propagated error), plus the instrumentation counters. -/
structure RunLoopReturn where
  agent : Agent
  result : Except AgentError String
  llmCalls : Nat
  toolCalls : Nat

/-- Model of `max_iterations or self.max_iterations` (react_agent.py line 223): the
override is used unless it is `None` or falsy (`0`); iteration counts are
naturals, the Python ints in play here being non-negative. -/
def effectiveMaxIter (a : Agent) (max_iterations : Option Nat) : Nat :=
  match max_iterations with
  | some n => if n = 0 then a.max_iterations else n
  | none => a.max_iterations

/-- Model of `Agent.run_loop` (react_agent.py lines 203-311). -/
def Agent.run_loop (a : Agent) (llm : LLM) (query : String)
    (max_iterations : Option Nat) (reset_conversation : Bool) : RunLoopReturn :=
  let out := runLoopAux a.tools llm (effectiveMaxIter a max_iterations)
    (initialMessages a query reset_conversation) [] 0 0
  ⟨{ a with messages := out.messages }, out.result, out.llmCalls, out.toolCalls⟩

/-- A client that never fails, replying `f`. -/
def okLLM (f : List Message → String) : LLM :=
  fun msgs => .ok (f msgs)

/-! ## Helper lemmas about one loop iteration -/

theorem callLLM_ok (llm : LLM) (msgs : List Message) (r : String)
    (h : llm msgs = .ok r) : callLLM llm msgs = .ok r := by
  simp [callLLM, h]

theorem callLLM_error (llm : LLM) (msgs : List Message) (e : String)
    (h : llm msgs = .error e) :
    callLLM llm msgs = .error (.llmAPIError ("Error calling Groq API: " ++ e)) := by
  simp [callLLM, h]

theorem runLoopAux_error_step (tools : List (String × Tool)) (llm : LLM)
    (fuel : Nat) (msgs : List Message) (full : List String) (lc tc : Nat) (e : String)
    (h : llm msgs = .error e) :
    runLoopAux tools llm (fuel + 1) msgs full lc tc =
      ⟨msgs, lc + 1, tc, .error (.llmAPIError ("Error calling Groq API: " ++ e))⟩ := by
  simp [runLoopAux, callLLM, h]

theorem runLoopAux_answer_step (tools : List (String × Tool)) (llm : LLM)
    (fuel : Nat) (msgs : List Message) (full : List String) (lc tc : Nat) (r : String)
    (h : llm msgs = .ok r) (ha : containsSubstr r "Answer:" = true) :
    runLoopAux tools llm (fuel + 1) msgs full lc tc =
      ⟨msgs ++ [⟨"assistant", r⟩], lc + 1, tc, .ok (joinNL (full ++ [r]))⟩ := by
  simp [runLoopAux, callLLM, h, ha]

theorem runLoopAux_dispatch_step (tools : List (String × Tool)) (llm : LLM)
    (fuel : Nat) (msgs : List Message) (full : List String) (lc tc : Nat) (r : String)
    (name args : String) (t : Tool)
    (h : llm msgs = .ok r)
    (hna : containsSubstr r "Answer:" = false)
    (hp : containsSubstr r "PAUSE" = true)
    (hact : parse_action r = some (name, args))
    (hlk : List.lookup name tools = some t) :
    runLoopAux tools llm (fuel + 1) msgs full lc tc =
      runLoopAux tools llm fuel
        (msgs ++ [⟨"assistant", r⟩, ⟨"user", "Observation: " ++ dumps (t.safe_execute args)⟩])
        (full ++ [r]) (lc + 1) (tc + 1) := by
  simp [runLoopAux, callLLM, h, hna, hp, hact, hlk]

theorem runLoopAux_notfound_step (tools : List (String × Tool)) (llm : LLM)
    (fuel : Nat) (msgs : List Message) (full : List String) (lc tc : Nat) (r : String)
    (name args : String)
    (h : llm msgs = .ok r)
    (hna : containsSubstr r "Answer:" = false)
    (hp : containsSubstr r "PAUSE" = true)
    (hact : parse_action r = some (name, args))
    (hlk : List.lookup name tools = none) :
    runLoopAux tools llm (fuel + 1) msgs full lc tc =
      runLoopAux tools llm fuel
        (msgs ++ [⟨"assistant", r⟩, ⟨"user", toolNotFoundObs tools name⟩])
        (full ++ [r]) (lc + 1) tc := by
  simp [runLoopAux, callLLM, h, hna, hp, hact, hlk]

theorem runLoopAux_parsefail_step (tools : List (String × Tool)) (llm : LLM)
    (fuel : Nat) (msgs : List Message) (full : List String) (lc tc : Nat) (r : String)
    (h : llm msgs = .ok r)
    (hna : containsSubstr r "Answer:" = false)
    (hp : containsSubstr r "PAUSE" = true)
    (hact : parse_action r = none) :
    runLoopAux tools llm (fuel + 1) msgs full lc tc =
      runLoopAux tools llm fuel
        (msgs ++ [⟨"assistant", r⟩, ⟨"user", couldNotParseObs⟩])
        (full ++ [r]) (lc + 1) tc := by
  simp [runLoopAux, callLLM, h, hna, hp, hact]

theorem runLoopAux_nopause_step (tools : List (String × Tool)) (llm : LLM)
    (fuel : Nat) (msgs : List Message) (full : List String) (lc tc : Nat) (r : String)
    (h : llm msgs = .ok r)
    (hna : containsSubstr r "Answer:" = false)
    (hp : containsSubstr r "PAUSE" = false) :
    runLoopAux tools llm (fuel + 1) msgs full lc tc =
      runLoopAux tools llm fuel
        (msgs ++ [⟨"assistant", r⟩, ⟨"user", noPauseObs⟩])
        (full ++ [r]) (lc + 1) tc := by
  simp [runLoopAux, callLLM, h, hna, hp]

/-! ## Helper lemmas about joined replies -/

theorem joinNL_suffix (full : List String) (r : String) :
    r.data <:+ (joinNL (full ++ [r])).data := by
  induction full with
  | nil => simp [joinNL]
  | cons s rest ih =>
    cases rest with
    | nil =>
      simp only [List.nil_append, List.cons_append, joinNL, String.data_append]
      exact (List.suffix_refl r.data).trans (List.suffix_append _ _)
    | cons t rest2 =>
      simp only [List.cons_append, joinNL, String.data_append] at ih ⊢
      exact ih.trans (List.suffix_append _ _)

theorem containsSubstr_joinNL_append (full : List String) (r : String) :
    containsSubstr (joinNL (full ++ [r])) r = true :=
  decide_eq_true (joinNL_suffix full r).isInfix

/-! ## The loop only ever appends to the conversation -/

theorem runLoopAux_messages_extend (tools : List (String × Tool)) (llm : LLM) :
    ∀ (fuel : Nat) (msgs : List Message) (full : List String) (lc tc : Nat),
      ∃ t, (runLoopAux tools llm fuel msgs full lc tc).messages = msgs ++ t := by
  intro fuel
  induction fuel with
  | zero => intro msgs full lc tc; exact ⟨[], by simp [runLoopAux]⟩
  | succ n ih =>
    intro msgs full lc tc
    cases hc : llm msgs with
    | error e =>
      rw [runLoopAux_error_step tools llm n msgs full lc tc e hc]
      exact ⟨[], by simp⟩
    | ok r =>
      by_cases ha : containsSubstr r "Answer:" = true
      · rw [runLoopAux_answer_step tools llm n msgs full lc tc r hc ha]
        exact ⟨[⟨"assistant", r⟩], rfl⟩
      · have hna : containsSubstr r "Answer:" = false := by
          revert ha; cases containsSubstr r "Answer:" <;> simp
        by_cases hp : containsSubstr r "PAUSE" = true
        · cases hact : parse_action r with
          | none =>
            rw [runLoopAux_parsefail_step tools llm n msgs full lc tc r hc hna hp hact]
            obtain ⟨t, ht⟩ := ih _ _ _ _
            exact ⟨_, by rw [ht, List.append_assoc]⟩
          | some pair =>
            obtain ⟨name, args⟩ := pair
            cases hlk : List.lookup name tools with
            | none =>
              rw [runLoopAux_notfound_step tools llm n msgs full lc tc r name args hc hna hp hact hlk]
              obtain ⟨t, ht⟩ := ih _ _ _ _
              exact ⟨_, by rw [ht, List.append_assoc]⟩
            | some tl =>
              rw [runLoopAux_dispatch_step tools llm n msgs full lc tc r name args tl hc hna hp hact hlk]
              obtain ⟨t, ht⟩ := ih _ _ _ _
              exact ⟨_, by rw [ht, List.append_assoc]⟩
        · have hp' : containsSubstr r "PAUSE" = false := by
            revert hp; cases containsSubstr r "PAUSE" <;> simp
          rw [runLoopAux_nopause_step tools llm n msgs full lc tc r hc hna hp']
          obtain ⟨t, ht⟩ := ih _ _ _ _
          exact ⟨_, by rw [ht, List.append_assoc]⟩

/-! ## The replies appended during a run -/

/-- The `full_response` list of a run is recoverable from the conversation
turns appended during that run: it is their assistant-role contents. -/
def assistantContents (ms : List Message) : List String :=
  (ms.filter (fun m => m.role == "assistant")).map Message.content

theorem assistantContents_append (l1 l2 : List Message) :
    assistantContents (l1 ++ l2) = assistantContents l1 ++ assistantContents l2 := by
  simp [assistantContents]

/-- If no reply of a never-failing model contains `Answer:`, a run with
`fuel` remaining iterations performs exactly `fuel` further model calls,
appends turns whose assistant contents are the `fuel` further replies, and
returns the joined replies followed by the budget notice. -/
theorem runLoopAux_no_answer (tools : List (String × Tool)) (f : List Message → String)
    (hf : ∀ m, containsSubstr (f m) "Answer:" = false) :
    ∀ (fuel : Nat) (msgs : List Message) (full : List String) (lc tc : Nat),
      ∃ newMsgs,
        (runLoopAux tools (okLLM f) fuel msgs full lc tc).messages = msgs ++ newMsgs ∧
        (runLoopAux tools (okLLM f) fuel msgs full lc tc).llmCalls = lc + fuel ∧
        (runLoopAux tools (okLLM f) fuel msgs full lc tc).result =
          .ok (joinNL (full ++ assistantContents newMsgs) ++ exceededNotice) ∧
        (assistantContents newMsgs).length = fuel := by
  intro fuel
  induction fuel with
  | zero =>
    intro msgs full lc tc
    exact ⟨[], by simp [runLoopAux, assistantContents]⟩
  | succ n ih =>
    intro msgs full lc tc
    have hc : (okLLM f) msgs = .ok (f msgs) := rfl
    have hna := hf msgs
    have key : ∀ (obs : String) (tc' : Nat),
        ∃ newMsgs,
          (runLoopAux tools (okLLM f) n
              (msgs ++ [⟨"assistant", f msgs⟩, ⟨"user", obs⟩])
              (full ++ [f msgs]) (lc + 1) tc').messages =
            msgs ++ ((⟨"assistant", f msgs⟩ : Message) :: (⟨"user", obs⟩ : Message) :: newMsgs) ∧
          (runLoopAux tools (okLLM f) n
              (msgs ++ [⟨"assistant", f msgs⟩, ⟨"user", obs⟩])
              (full ++ [f msgs]) (lc + 1) tc').llmCalls = lc + (n + 1) ∧
          (runLoopAux tools (okLLM f) n
              (msgs ++ [⟨"assistant", f msgs⟩, ⟨"user", obs⟩])
              (full ++ [f msgs]) (lc + 1) tc').result =
            .ok (joinNL (full ++
              assistantContents ((⟨"assistant", f msgs⟩ : Message) :: (⟨"user", obs⟩ : Message) :: newMsgs)) ++
              exceededNotice) ∧
          (assistantContents
            ((⟨"assistant", f msgs⟩ : Message) :: (⟨"user", obs⟩ : Message) :: newMsgs)).length = n + 1 := by
      intro obs tc'
      obtain ⟨nm, h1, h2, h3, h4⟩ := ih (msgs ++ [⟨"assistant", f msgs⟩, ⟨"user", obs⟩]) (full ++ [f msgs]) (lc + 1) tc'
      refine ⟨nm, ?_, ?_, ?_, ?_⟩
      · rw [h1, List.append_assoc]; rfl
      · rw [h2]; omega
      · have hacs : assistantContents
            ((⟨"assistant", f msgs⟩ : Message) :: (⟨"user", obs⟩ : Message) :: nm) =
            f msgs :: assistantContents nm := by
          simp [assistantContents]
        rw [h3, hacs, List.append_assoc]; rfl
      · have : assistantContents
            ((⟨"assistant", f msgs⟩ : Message) :: (⟨"user", obs⟩ : Message) :: nm) =
            f msgs :: assistantContents nm := by
          simp [assistantContents]
        rw [this]
        simp [h4]
    by_cases hp : containsSubstr (f msgs) "PAUSE" = true
    · cases hact : parse_action (f msgs) with
      | none =>
        rw [runLoopAux_parsefail_step tools (okLLM f) n msgs full lc tc (f msgs) hc hna hp hact]
        obtain ⟨nm, h1, h2, h3, h4⟩ := key couldNotParseObs tc
        exact ⟨_, h1, h2, h3, h4⟩
      | some pair =>
        obtain ⟨name, args⟩ := pair
        cases hlk : List.lookup name tools with
        | none =>
          rw [runLoopAux_notfound_step tools (okLLM f) n msgs full lc tc (f msgs) name args hc hna hp hact hlk]
          obtain ⟨nm, h1, h2, h3, h4⟩ := key (toolNotFoundObs tools name) tc
          exact ⟨_, h1, h2, h3, h4⟩
        | some tl =>
          rw [runLoopAux_dispatch_step tools (okLLM f) n msgs full lc tc (f msgs) name args tl hc hna hp hact hlk]
          obtain ⟨nm, h1, h2, h3, h4⟩ := key ("Observation: " ++ dumps (tl.safe_execute args)) (tc + 1)
          exact ⟨_, h1, h2, h3, h4⟩
    · have hp' : containsSubstr (f msgs) "PAUSE" = false := by
        revert hp; cases containsSubstr (f msgs) "PAUSE" <;> simp
      rw [runLoopAux_nopause_step tools (okLLM f) n msgs full lc tc (f msgs) hc hna hp']
      obtain ⟨nm, h1, h2, h3, h4⟩ := key noPauseObs tc
      exact ⟨_, h1, h2, h3, h4⟩

/-! ## Errors leaving the loop are exactly wrapped client failures -/

theorem runLoopAux_error_characterization (tools : List (String × Tool)) (llm : LLM) :
    ∀ (fuel : Nat) (msgs : List Message) (full : List String) (lc tc : Nat) (err : AgentError),
      (runLoopAux tools llm fuel msgs full lc tc).result = .error err →
      ∃ m e, llm m = .error e ∧ err = .llmAPIError ("Error calling Groq API: " ++ e) := by
  intro fuel
  induction fuel with
  | zero =>
    intro msgs full lc tc err h
    simp [runLoopAux] at h
  | succ n ih =>
    intro msgs full lc tc err h
    cases hc : llm msgs with
    | error e =>
      rw [runLoopAux_error_step tools llm n msgs full lc tc e hc] at h
      exact ⟨msgs, e, hc, by simpa using h.symm⟩
    | ok r =>
      by_cases ha : containsSubstr r "Answer:" = true
      · rw [runLoopAux_answer_step tools llm n msgs full lc tc r hc ha] at h
        simp at h
      · have hna : containsSubstr r "Answer:" = false := by
          revert ha; cases containsSubstr r "Answer:" <;> simp
        by_cases hp : containsSubstr r "PAUSE" = true
        · cases hact : parse_action r with
          | none =>
            rw [runLoopAux_parsefail_step tools llm n msgs full lc tc r hc hna hp hact] at h
            exact ih _ _ _ _ _ h
          | some pair =>
            obtain ⟨name, args⟩ := pair
            cases hlk : List.lookup name tools with
            | none =>
              rw [runLoopAux_notfound_step tools llm n msgs full lc tc r name args hc hna hp hact hlk] at h
              exact ih _ _ _ _ _ h
            | some tl =>
              rw [runLoopAux_dispatch_step tools llm n msgs full lc tc r name args tl hc hna hp hact hlk] at h
              exact ih _ _ _ _ _ h
        · have hp' : containsSubstr r "PAUSE" = false := by
            revert hp; cases containsSubstr r "PAUSE" <;> simp
          rw [runLoopAux_nopause_step tools llm n msgs full lc tc r hc hna hp'] at h
          exact ih _ _ _ _ _ h

/-! ## Conversation-shape machinery for the alternation invariant -/

/-- Strict user→assistant alternation (observations count as user turns); a
trailing user turn that has not been answered yet is fine. -/
def rolesAlternate : List Message → Bool
  | [] => true
  | [m] => m.role == "user"
  | m1 :: m2 :: rest => m1.role == "user" && m2.role == "assistant" && rolesAlternate rest

/-- The claimed conversation invariant: a leading system turn carrying the
system prompt, followed by strictly alternating user→assistant turns. -/
def conversationInvariant (sp : String) : List Message → Bool
  | [] => false
  | first :: rest => first.role == "system" && first.content == sp && rolesAlternate rest

/-- Complete user/assistant pairs (no dangling user turn). -/
def pairsUA : List Message → Bool
  | [] => true
  | [_] => false
  | m1 :: m2 :: rest => m1.role == "user" && m2.role == "assistant" && pairsUA rest

theorem pairsUA_append (u a : Message) (hu : u.role = "user") (ha : a.role = "assistant") :
    ∀ l, pairsUA l = true → pairsUA (l ++ [u, a]) = true
  | [], _ => by simp [pairsUA, hu, ha]
  | [m], h => by simp [pairsUA] at h
  | m1 :: m2 :: rest, h => by
    simp only [pairsUA, Bool.and_eq_true] at h
    simp only [List.cons_append, pairsUA, Bool.and_eq_true]
    exact ⟨⟨h.1.1, h.1.2⟩, pairsUA_append u a hu ha rest h.2⟩

theorem pairsUA_rolesAlternate : ∀ l, pairsUA l = true → rolesAlternate l = true
  | [], _ => rfl
  | [m], h => by simp [pairsUA] at h
  | m1 :: m2 :: rest, h => by
    simp only [pairsUA, Bool.and_eq_true] at h
    simp only [rolesAlternate, Bool.and_eq_true]
    exact ⟨⟨h.1.1, h.1.2⟩, pairsUA_rolesAlternate rest h.2⟩

/-- A sequence of `run_loop` invocations: each entry is the query, the
iteration-ceiling override, and the reset flag of one call. -/
def runCalls (llm : LLM) : Agent → List (String × Option Nat × Bool) → Agent
  | a, [] => a
  | a, (q, ov, rs) :: rest => runCalls llm ((a.run_loop llm q ov rs).agent) rest

theorem run_loop_fields (a : Agent) (llm : LLM) (q : String) (ov : Option Nat) (rs : Bool) :
    (a.run_loop llm q ov rs).agent.tools = a.tools ∧
    (a.run_loop llm q ov rs).agent.max_iterations = a.max_iterations ∧
    (a.run_loop llm q ov rs).agent.system_prompt = a.system_prompt :=
  ⟨rfl, rfl, rfl⟩

theorem effectiveMaxIter_pos (a : Agent) (ov : Option Nat)
    (hmax : 0 < a.max_iterations) : 0 < effectiveMaxIter a ov := by
  cases ov with
  | none => simpa [effectiveMaxIter]
  | some n =>
    by_cases h : n = 0
    · simpa [effectiveMaxIter, h]
    · simp [effectiveMaxIter, h]
      omega

theorem lookup_eq_none_of_not_mem (name : String) :
    ∀ tools : List (String × Tool), name ∉ tools.map Prod.fst →
      List.lookup name tools = none
  | [], _ => rfl
  | (k, t) :: rest, h => by
    simp only [List.map_cons, List.mem_cons] at h
    push_neg at h
    have hk : (name == k) = false := beq_eq_false_iff_ne.mpr h.1
    simp only [List.lookup, hk]
    exact lookup_eq_none_of_not_mem name rest h.2

theorem run_loop_messages_extend (b : Agent) (llm : LLM) (q : String)
    (ov : Option Nat) (rs : Bool) :
    ∃ t, (b.run_loop llm q ov rs).agent.messages = initialMessages b q rs ++ t := by
  have e : (b.run_loop llm q ov rs).agent.messages
      = (runLoopAux b.tools llm (effectiveMaxIter b ov) (initialMessages b q rs) [] 0 0).messages :=
    rfl
  rw [e]
  exact runLoopAux_messages_extend b.tools llm _ _ _ _ _

theorem run_loop_messages_ne_nil (b : Agent) (llm : LLM) (q : String)
    (ov : Option Nat) (rs : Bool) :
    (b.run_loop llm q ov rs).agent.messages ≠ [] := by
  obtain ⟨t, ht⟩ := run_loop_messages_extend b llm q ov rs
  rw [ht]
  simp [initialMessages]

/-- One `run_loop` call on a model whose every reply carries `Answer:`
keeps the conversation a system turn followed by complete user/assistant
pairs. -/
theorem run_loop_pairs_preserved (b : Agent) (f : List Message → String)
    (q : String) (ov : Option Nat) (rs : Bool) (sp : String)
    (hsp : b.system_prompt = sp)
    (hmax : 0 < b.max_iterations)
    (hf : ∀ m, containsSubstr (f m) "Answer:" = true)
    (hinv : ∃ rest, b.messages = ⟨"system", sp⟩ :: rest ∧ pairsUA rest = true) :
    ∃ rest, (b.run_loop (okLLM f) q ov rs).agent.messages = ⟨"system", sp⟩ :: rest ∧
      pairsUA rest = true := by
  obtain ⟨rest0, hmsgs, hpairs⟩ := hinv
  have hseed : ∃ r0, initialMessages b q rs =
      ⟨"system", sp⟩ :: (r0 ++ [⟨"user", "Question: " ++ q⟩]) ∧ pairsUA r0 = true := by
    unfold initialMessages
    by_cases hrs : (rs || b.messages.isEmpty) = true
    · rw [if_pos hrs, hsp]
      exact ⟨[], rfl, rfl⟩
    · rw [if_neg hrs, hmsgs]
      exact ⟨rest0, by simp, hpairs⟩
  obtain ⟨r0, hinit, hp0⟩ := hseed
  have hpos : 0 < effectiveMaxIter b ov := effectiveMaxIter_pos b ov hmax
  have hk : effectiveMaxIter b ov = (effectiveMaxIter b ov - 1) + 1 := by omega
  have e2 : (b.run_loop (okLLM f) q ov rs).agent.messages
      = (runLoopAux b.tools (okLLM f) (effectiveMaxIter b ov)
          (initialMessages b q rs) [] 0 0).messages := rfl
  rw [e2, hk, runLoopAux_answer_step b.tools (okLLM f) (effectiveMaxIter b ov - 1)
    (initialMessages b q rs) [] 0 0 (f (initialMessages b q rs)) rfl (hf _)]
  refine ⟨r0 ++ [⟨"user", "Question: " ++ q⟩,
    ⟨"assistant", f (initialMessages b q rs)⟩], ?_, ?_⟩
  · rw [hinit]
    simp
  · exact pairsUA_append _ _ rfl rfl r0 hp0

/-! ## Concrete instances used by witnesses and counterexamples -/

/-- A registered weather tool. -/
def demoTool : Tool :=
  ⟨"get_weather", "Gets the current weather for a city", fun args => .ok [("city", args)]⟩

/-- An agent with one registered tool. -/
def demoAgent : Agent :=
  ⟨[("get_weather", demoTool)], 3, "SYSTEM PROMPT", []⟩

/-- An agent with no tools and a one-iteration default ceiling. -/
def smallAgent : Agent :=
  ⟨[], 1, "SP", []⟩

/-- A tool whose `execute` raises on every input. -/
def boomTool : Tool :=
  ⟨"boom", "always fails", fun _ => .error "ValueError: bad input"⟩

/-- A model client that always raises. -/
def failLLM : LLM :=
  fun _ => .error "boom"

/-- A reply whose action tool name differs from the registered key only in
letter case. -/
def caseReply : String :=
  "Thought: t\nAction: Get_weather: London\nPAUSE"

/-! ## Claims -/

/-- C1: a model reply containing `Answer:` (even if it also contains
`PAUSE`: that branch is checked first) terminates `run_loop` within the
same iteration — one more model call, no tool dispatched, conversation
extended only by the assistant turn — and the returned string is the
newline-joined concatenation of all replies collected this run, which
contains that reply as a substring. -/
theorem c1_answer_terminates (tools : List (String × Tool)) (llm : LLM)
    (fuel : Nat) (msgs : List Message) (full : List String) (lc tc : Nat) (r : String)
    (hr : llm msgs = .ok r) (ha : containsSubstr r "Answer:" = true) :
    runLoopAux tools llm (fuel + 1) msgs full lc tc =
      ⟨msgs ++ [⟨"assistant", r⟩], lc + 1, tc, .ok (joinNL (full ++ [r]))⟩ ∧
    containsSubstr (joinNL (full ++ [r])) r = true :=
  ⟨runLoopAux_answer_step tools llm fuel msgs full lc tc r hr ha,
   containsSubstr_joinNL_append full r⟩

theorem c1_answer_terminates_witness :
    runLoopAux [] (okLLM (fun _ => "PAUSE Answer: hi")) 1 [] [] 0 0 =
      ⟨[⟨"assistant", "PAUSE Answer: hi"⟩], 1, 0, .ok "PAUSE Answer: hi"⟩ ∧
    containsSubstr "PAUSE Answer: hi" "PAUSE Answer: hi" = true :=
  c1_answer_terminates [] (okLLM (fun _ => "PAUSE Answer: hi")) 0 [] [] 0 0
    "PAUSE Answer: hi" rfl (by decide)

/-- C2: with a positive ceiling override `N` and a model that never emits
`Answer:`, `run_loop` terminates after exactly `N` model-boundary calls,
and returns the newline-joined replies of this run (the assistant contents
of the turns appended this run) followed by the budget-exceeded notice. -/
theorem c2_budget_exhaustion (a : Agent) (f : List Message → String) (q : String)
    (rs : Bool) (N : Nat) (hN : 0 < N)
    (hf : ∀ m, containsSubstr (f m) "Answer:" = false) :
    (a.run_loop (okLLM f) q (some N) rs).llmCalls = N ∧
    ∃ newMsgs,
      (a.run_loop (okLLM f) q (some N) rs).agent.messages =
        initialMessages a q rs ++ newMsgs ∧
      (assistantContents newMsgs).length = N ∧
      (a.run_loop (okLLM f) q (some N) rs).result =
        .ok (joinNL (assistantContents newMsgs) ++ exceededNotice) := by
  have hN' : N ≠ 0 := Nat.pos_iff_ne_zero.mp hN
  have hEff : effectiveMaxIter a (some N) = N := by simp [effectiveMaxIter, hN']
  obtain ⟨nm, h1, h2, h3, h4⟩ :=
    runLoopAux_no_answer a.tools f hf (effectiveMaxIter a (some N))
      (initialMessages a q rs) [] 0 0
  have e1 : (a.run_loop (okLLM f) q (some N) rs).llmCalls
      = (runLoopAux a.tools (okLLM f) (effectiveMaxIter a (some N))
          (initialMessages a q rs) [] 0 0).llmCalls := rfl
  have e2 : (a.run_loop (okLLM f) q (some N) rs).agent.messages
      = (runLoopAux a.tools (okLLM f) (effectiveMaxIter a (some N))
          (initialMessages a q rs) [] 0 0).messages := rfl
  have e3 : (a.run_loop (okLLM f) q (some N) rs).result
      = (runLoopAux a.tools (okLLM f) (effectiveMaxIter a (some N))
          (initialMessages a q rs) [] 0 0).result := rfl
  refine ⟨?_, nm, ?_, ?_, ?_⟩
  · rw [e1, h2, hEff]; omega
  · rw [e2, h1]
  · rw [h4, hEff]
  · rw [e3, h3]; rfl

theorem c2_budget_exhaustion_witness :
    (smallAgent.run_loop (okLLM (fun _ => "hi")) "q" (some 1) true).llmCalls = 1 ∧
    ∃ newMsgs,
      (smallAgent.run_loop (okLLM (fun _ => "hi")) "q" (some 1) true).agent.messages =
        initialMessages smallAgent "q" true ++ newMsgs ∧
      (assistantContents newMsgs).length = 1 ∧
      (smallAgent.run_loop (okLLM (fun _ => "hi")) "q" (some 1) true).result =
        .ok (joinNL (assistantContents newMsgs) ++ exceededNotice) :=
  c2_budget_exhaustion smallAgent (fun _ => "hi") "q" true 1 (by decide) (fun _ => rfl)

/-- C3: `safe_execute` never raises; when `execute` returns normally the
result is passed through unchanged, and when `execute` raises anything the
result is a mapping with exactly an `error` key holding a non-empty
message. -/
theorem c3_safe_execute_never_raises (t : Tool) (args : String) :
    (∀ r, t.execute args = .ok r → t.safe_execute args = r) ∧
    (∀ e, t.execute args = .error e →
      t.safe_execute args =
        [("error", "Error executing the tool " ++ t.name ++ " with args " ++ args)] ∧
      "Error executing the tool " ++ t.name ++ " with args " ++ args ≠ "") := by
  constructor
  · intro r h
    simp [Tool.safe_execute, h]
  · intro e h
    refine ⟨by simp [Tool.safe_execute, h], ?_⟩
    intro hEq
    have hl := congrArg String.length hEq
    simp only [String.length_append] at hl
    have h25 : ("Error executing the tool " : String).length = 25 := rfl
    have h11 : (" with args " : String).length = 11 := rfl
    have h0 : ("" : String).length = 0 := rfl
    rw [h25, h11, h0] at hl
    omega

theorem c3_safe_execute_never_raises_witness :
    boomTool.safe_execute "x" = [("error", "Error executing the tool boom with args x")] ∧
    "Error executing the tool boom with args x" ≠ "" :=
  (c3_safe_execute_never_raises boomTool "x").2 "ValueError: bad input" rfl

/-- C4 counterexample: the reply `caseReply` parses to tool name
`Get_weather`, which differs from the registered key `get_weather` only in
letter case, yet the run dispatches no tool and injects the tool-not-found
observation — refuting case-insensitive matching against registry keys. -/
theorem c4_counterexample :
    (demoAgent.run_loop (okLLM (fun _ => caseReply)) "q" (some 1) true).toolCalls = 0 ∧
    (demoAgent.run_loop (okLLM (fun _ => caseReply)) "q" (some 1) true).agent.messages =
      [⟨"system", "SYSTEM PROMPT"⟩, ⟨"user", "Question: q"⟩, ⟨"assistant", caseReply⟩,
       ⟨"user", "Observation: Tool 'Get_weather' not found. Available tools: get_weather"⟩] := by
  constructor <;> rfl

/-- C4 (amended): the action parser accepts the tool name case-insensitively
(it captures `Get_weather` from `caseReply`), but the registry lookup is
case-sensitive, so a parsed tool name that is not literally among the
registry keys — in particular one differing from a key only in letter
case — produces the tool-not-found observation instead of dispatching. -/
theorem c4_case_sensitive_lookup :
    parse_action caseReply = some ("Get_weather", "London") ∧
    (∀ (tools : List (String × Tool)) (llm : LLM) (fuel : Nat) (msgs : List Message)
        (full : List String) (lc tc : Nat) (r name args : String),
      llm msgs = .ok r →
      containsSubstr r "Answer:" = false →
      containsSubstr r "PAUSE" = true →
      parse_action r = some (name, args) →
      name ∉ tools.map Prod.fst →
      runLoopAux tools llm (fuel + 1) msgs full lc tc =
        runLoopAux tools llm fuel
          (msgs ++ [⟨"assistant", r⟩, ⟨"user", toolNotFoundObs tools name⟩])
          (full ++ [r]) (lc + 1) tc) := by
  refine ⟨rfl, ?_⟩
  intro tools llm fuel msgs full lc tc r name args hr hna hp hact hmem
  exact runLoopAux_notfound_step tools llm fuel msgs full lc tc r name args hr hna hp hact
    (lookup_eq_none_of_not_mem name tools hmem)

theorem c4_case_sensitive_lookup_witness :
    runLoopAux [("get_weather", demoTool)] (okLLM (fun _ => caseReply)) 1 [] [] 0 0 =
      runLoopAux [("get_weather", demoTool)] (okLLM (fun _ => caseReply)) 0
        [⟨"assistant", caseReply⟩,
         ⟨"user", toolNotFoundObs [("get_weather", demoTool)] "Get_weather"⟩]
        [caseReply] 1 0 :=
  c4_case_sensitive_lookup.2 [("get_weather", demoTool)] (okLLM (fun _ => caseReply))
    0 [] [] 0 0 caseReply "Get_weather" "London" rfl (by decide) (by decide) rfl (by decide)

/-- C5: a reply with `PAUSE` (and no `Answer:`) whose parsed action names a
tool absent from the registry makes the loop continue with an injected
user-role observation that is exactly `Observation: Tool '<name>' not
found. Available tools: ` followed by the registry keys joined by `, ` in
registry order. -/
theorem c5_unknown_tool_observation (tools : List (String × Tool)) (llm : LLM)
    (fuel : Nat) (msgs : List Message) (full : List String) (lc tc : Nat)
    (r name args : String)
    (hr : llm msgs = .ok r)
    (hna : containsSubstr r "Answer:" = false)
    (hp : containsSubstr r "PAUSE" = true)
    (hact : parse_action r = some (name, args))
    (hlk : List.lookup name tools = none) :
    runLoopAux tools llm (fuel + 1) msgs full lc tc =
      runLoopAux tools llm fuel
        (msgs ++ [⟨"assistant", r⟩,
          ⟨"user", "Observation: Tool '" ++ name ++ "' not found. Available tools: " ++
            String.intercalate ", " (tools.map Prod.fst)⟩])
        (full ++ [r]) (lc + 1) tc :=
  runLoopAux_notfound_step tools llm fuel msgs full lc tc r name args hr hna hp hact hlk

theorem c5_unknown_tool_observation_witness :
    runLoopAux [("get_weather", demoTool)]
        (okLLM (fun _ => "Action: make_coffee: now\nPAUSE")) 2 [] [] 0 0 =
      runLoopAux [("get_weather", demoTool)]
        (okLLM (fun _ => "Action: make_coffee: now\nPAUSE")) 1
        [⟨"assistant", "Action: make_coffee: now\nPAUSE"⟩,
         ⟨"user", "Observation: Tool 'make_coffee' not found. Available tools: get_weather"⟩]
        ["Action: make_coffee: now\nPAUSE"] 1 0 :=
  c5_unknown_tool_observation [("get_weather", demoTool)]
    (okLLM (fun _ => "Action: make_coffee: now\nPAUSE")) 1 [] [] 0 0
    "Action: make_coffee: now\nPAUSE" "make_coffee" "now"
    rfl (by decide) (by decide) rfl rfl

/-- C6: a reply with `PAUSE` (and no `Answer:`) from which no action can be
parsed makes the loop continue with the fixed corrective text verbatim as
the next user turn; a reply with neither `Answer:` nor `PAUSE` makes it
continue with the other fixed corrective text verbatim. -/
theorem c6_corrective_messages (tools : List (String × Tool)) (llm : LLM)
    (fuel : Nat) (msgs : List Message) (full : List String) (lc tc : Nat) (r : String)
    (hr : llm msgs = .ok r)
    (hna : containsSubstr r "Answer:" = false) :
    (containsSubstr r "PAUSE" = true → parse_action r = none →
      runLoopAux tools llm (fuel + 1) msgs full lc tc =
        runLoopAux tools llm fuel
          (msgs ++ [⟨"assistant", r⟩, ⟨"user",
            "Observation: Could not parse action. Please use the format 'Action: tool_name: arguments'"⟩])
          (full ++ [r]) (lc + 1) tc) ∧
    (containsSubstr r "PAUSE" = false →
      runLoopAux tools llm (fuel + 1) msgs full lc tc =
        runLoopAux tools llm fuel
          (msgs ++ [⟨"assistant", r⟩, ⟨"user",
            "Observation: Expected 'Action: tool_name: arguments' followed by 'PAUSE'. Please follow the format."⟩])
          (full ++ [r]) (lc + 1) tc) :=
  ⟨fun hp hact => runLoopAux_parsefail_step tools llm fuel msgs full lc tc r hr hna hp hact,
   fun hp => runLoopAux_nopause_step tools llm fuel msgs full lc tc r hr hna hp⟩

theorem c6_corrective_messages_witness :
    (runLoopAux [] (okLLM (fun _ => "Thought: hmm\nPAUSE")) 2 [] [] 0 0 =
      runLoopAux [] (okLLM (fun _ => "Thought: hmm\nPAUSE")) 1
        [⟨"assistant", "Thought: hmm\nPAUSE"⟩, ⟨"user",
          "Observation: Could not parse action. Please use the format 'Action: tool_name: arguments'"⟩]
        ["Thought: hmm\nPAUSE"] 1 0) ∧
    (runLoopAux [] (okLLM (fun _ => "hello there")) 2 [] [] 0 0 =
      runLoopAux [] (okLLM (fun _ => "hello there")) 1
        [⟨"assistant", "hello there"⟩, ⟨"user",
          "Observation: Expected 'Action: tool_name: arguments' followed by 'PAUSE'. Please follow the format."⟩]
        ["hello there"] 1 0) :=
  ⟨(c6_corrective_messages [] (okLLM (fun _ => "Thought: hmm\nPAUSE")) 1 [] [] 0 0
      "Thought: hmm\nPAUSE" rfl (by decide)).1 (by decide) rfl,
   (c6_corrective_messages [] (okLLM (fun _ => "hello there")) 1 [] [] 0 0
      "hello there" rfl (by decide)).2 (by decide)⟩

/-- C7 counterexample: after a reset, one budget-exhausted run (ceiling 1,
reply `hi` with neither marker) leaves a trailing user turn, so the next
`run_loop` call's query turn makes two consecutive user-role turns and the
claimed alternation invariant is false for the resulting conversation. -/
theorem c7_counterexample :
    conversationInvariant "SP"
      (((smallAgent.reset.run_loop (okLLM (fun _ => "hi")) "q1" none false).agent.run_loop
          (okLLM (fun _ => "hi")) "q2" none false).agent.messages) = false := by
  rfl

/-- C7 (amended): the invariant — first turn is the system instruction,
then strictly alternating user→assistant turns — holds across a reset and
any sequence of `run_loop` invocations provided the default ceiling is
positive and every model reply contains `Answer:` (so every run terminates
via the answer branch).  A budget-exhausted run instead leaves a trailing
user turn, and the next call's query turn then breaks strict alternation
(see the counterexample). -/
theorem c7_alternation_invariant (a : Agent) (f : List Message → String)
    (calls : List (String × Option Nat × Bool))
    (hmax : 0 < a.max_iterations)
    (hf : ∀ m, containsSubstr (f m) "Answer:" = true) :
    conversationInvariant a.system_prompt
      ((runCalls (okLLM f) a.reset calls).messages) = true := by
  suffices h : ∀ (cs : List (String × Option Nat × Bool)) (b : Agent),
      b.system_prompt = a.system_prompt →
      0 < b.max_iterations →
      (∃ rest, b.messages = ⟨"system", a.system_prompt⟩ :: rest ∧ pairsUA rest = true) →
      ∃ rest, (runCalls (okLLM f) b cs).messages =
        ⟨"system", a.system_prompt⟩ :: rest ∧ pairsUA rest = true by
    obtain ⟨rest, hm, hp⟩ := h calls a.reset rfl hmax ⟨[], rfl, rfl⟩
    rw [hm]
    simp only [conversationInvariant, beq_self_eq_true, Bool.true_and]
    exact pairsUA_rolesAlternate rest hp
  intro cs
  induction cs with
  | nil => intro b hsp hmx hinv; exact hinv
  | cons c rest ih =>
    obtain ⟨q, ov, rs⟩ := c
    intro b hsp hmx hinv
    have hstep := run_loop_pairs_preserved b f q ov rs a.system_prompt hsp hmx hf hinv
    have hfields := run_loop_fields b (okLLM f) q ov rs
    exact ih ((b.run_loop (okLLM f) q ov rs).agent)
      (by rw [hfields.2.2, hsp]) (by rw [hfields.2.1]; exact hmx) hstep

theorem c7_alternation_invariant_witness :
    conversationInvariant smallAgent.system_prompt
      ((runCalls (okLLM (fun _ => "Answer: done")) smallAgent.reset
        [("q1", none, false), ("q2", none, false)]).messages) = true :=
  c7_alternation_invariant smallAgent (fun _ => "Answer: done")
    [("q1", none, false), ("q2", none, false)] (by decide) (fun _ => rfl)

/-- C8: a second `run_loop` call without reset leaves every turn of the
first call unchanged and in place — the conversation afterwards is the
first call's conversation followed, in order, by the second call's new
turns (starting with its query turn); and the conversation is re-seeded to
start from just the system turn exactly when a reset is requested or the
conversation is empty. -/
theorem c8_conversation_persistence (a : Agent) (llm1 llm2 : LLM) (q1 q2 : String)
    (ov1 ov2 : Option Nat) (rs1 : Bool) :
    (∃ tail,
      ((a.run_loop llm1 q1 ov1 rs1).agent.run_loop llm2 q2 ov2 false).agent.messages =
        (a.run_loop llm1 q1 ov1 rs1).agent.messages ++
          (⟨"user", "Question: " ++ q2⟩ :: tail)) ∧
    (∀ (b : Agent) (llm : LLM) (q : String) (ov : Option Nat) (rs : Bool),
      rs = true ∨ b.messages = [] →
      ∃ tail, (b.run_loop llm q ov rs).agent.messages =
        ⟨"system", b.system_prompt⟩ :: ⟨"user", "Question: " ++ q⟩ :: tail) := by
  constructor
  · have hne := run_loop_messages_ne_nil a llm1 q1 ov1 rs1
    obtain ⟨t, ht⟩ :=
      run_loop_messages_extend (a.run_loop llm1 q1 ov1 rs1).agent llm2 q2 ov2 false
    have hempty : ((a.run_loop llm1 q1 ov1 rs1).agent.messages).isEmpty = false := by
      cases hm : (a.run_loop llm1 q1 ov1 rs1).agent.messages with
      | nil => exact absurd hm hne
      | cons x xs => rfl
    have hinit : initialMessages (a.run_loop llm1 q1 ov1 rs1).agent q2 false =
        (a.run_loop llm1 q1 ov1 rs1).agent.messages ++ [⟨"user", "Question: " ++ q2⟩] := by
      unfold initialMessages
      rw [hempty]
      rfl
    rw [hinit] at ht
    exact ⟨t, by rw [ht, List.append_assoc]; rfl⟩
  · intro b llm q ov rs hcond
    obtain ⟨t, ht⟩ := run_loop_messages_extend b llm q ov rs
    have hinit : initialMessages b q rs =
        [⟨"system", b.system_prompt⟩, ⟨"user", "Question: " ++ q⟩] := by
      unfold initialMessages
      rcases hcond with h | h
      · rw [h]; rfl
      · rw [h]; simp
    rw [hinit] at ht
    exact ⟨t, by rw [ht]; rfl⟩

theorem c8_conversation_persistence_witness :
    ∃ tail, (smallAgent.run_loop (okLLM (fun _ => "hi")) "q" none true).agent.messages =
      ⟨"system", smallAgent.system_prompt⟩ :: ⟨"user", "Question: q"⟩ :: tail :=
  (c8_conversation_persistence smallAgent (okLLM (fun _ => "hi")) (okLLM (fun _ => "hi"))
    "q" "q" none none true).2 smallAgent (okLLM (fun _ => "hi")) "q" none true (Or.inl rfl)

/-- C9: any failure of the underlying model client is wrapped by the model
invocation boundary in an `LLMAPIError` carrying the cause, and `run_loop`
does not absorb it: a client failure on the run's initial conversation
propagates out as exactly that wrapped error, and conversely every error
that leaves `run_loop` is such a wrapped client failure — in particular
tool-level failures (absorbed by `safe_execute`) never propagate. -/
theorem c9_llm_error_propagation :
    (∀ (llm : LLM) (msgs : List Message) (e : String),
      llm msgs = .error e →
      callLLM llm msgs = .error (.llmAPIError ("Error calling Groq API: " ++ e))) ∧
    (∀ (a : Agent) (llm : LLM) (q : String) (ov : Option Nat) (rs : Bool) (e : String),
      0 < a.max_iterations →
      llm (initialMessages a q rs) = .error e →
      (a.run_loop llm q ov rs).result =
        .error (.llmAPIError ("Error calling Groq API: " ++ e))) ∧
    (∀ (a : Agent) (llm : LLM) (q : String) (ov : Option Nat) (rs : Bool)
        (err : AgentError),
      (a.run_loop llm q ov rs).result = .error err →
      ∃ m e, llm m = .error e ∧
        err = .llmAPIError ("Error calling Groq API: " ++ e)) := by
  refine ⟨callLLM_error, ?_, ?_⟩
  · intro a llm q ov rs e hmax herr
    have hpos : 0 < effectiveMaxIter a ov := effectiveMaxIter_pos a ov hmax
    have hk : effectiveMaxIter a ov = (effectiveMaxIter a ov - 1) + 1 := by omega
    have e1 : (a.run_loop llm q ov rs).result
        = (runLoopAux a.tools llm (effectiveMaxIter a ov)
            (initialMessages a q rs) [] 0 0).result := rfl
    rw [e1, hk, runLoopAux_error_step a.tools llm (effectiveMaxIter a ov - 1)
      (initialMessages a q rs) [] 0 0 e herr]
  · intro a llm q ov rs err h
    have e1 : (a.run_loop llm q ov rs).result
        = (runLoopAux a.tools llm (effectiveMaxIter a ov)
            (initialMessages a q rs) [] 0 0).result := rfl
    rw [e1] at h
    exact runLoopAux_error_characterization a.tools llm _ _ _ _ _ _ h

theorem c9_llm_error_propagation_witness :
    (smallAgent.run_loop failLLM "q" none true).result =
      .error (.llmAPIError ("Error calling Groq API: " ++ "boom")) :=
  c9_llm_error_propagation.2.1 smallAgent failLLM "q" none true "boom" (by decide) rfl

/-- C10: a ceiling override of `0` (Python falsy) is ignored — the run is
identical to passing no override, so with a model that never emits
`Answer:` the loop still performs the instance's default number of model
calls rather than zero. -/
theorem c10_zero_override_ignored (a : Agent) (llm : LLM) (q : String) (rs : Bool) :
    a.run_loop llm q (some 0) rs = a.run_loop llm q none rs ∧
    (∀ f : List Message → String, (∀ m, containsSubstr (f m) "Answer:" = false) →
      (a.run_loop (okLLM f) q (some 0) rs).llmCalls = a.max_iterations) := by
  constructor
  · rfl
  · intro f hf
    obtain ⟨nm, h1, h2, h3, h4⟩ :=
      runLoopAux_no_answer a.tools f hf a.max_iterations (initialMessages a q rs) [] 0 0
    have e1 : (a.run_loop (okLLM f) q (some 0) rs).llmCalls
        = (runLoopAux a.tools (okLLM f) a.max_iterations
            (initialMessages a q rs) [] 0 0).llmCalls := rfl
    rw [e1, h2]
    omega

theorem c10_zero_override_ignored_witness :
    (smallAgent.run_loop (okLLM (fun _ => "hi")) "q" (some 0) true).llmCalls =
      smallAgent.max_iterations :=
  (c10_zero_override_ignored smallAgent (okLLM (fun _ => "hi")) "q" true).2
    (fun _ => "hi") (fun _ => rfl)
